import Mathlib

/-!
Verification development for the persistence facade (StorageManager) of the
pause-learn application, together with the pause handler of its video player.

The facade's TypeScript source is embedded shallowly:

* JavaScript numbers carried through storage (progress, duration, pause
  timestamps) are modelled as rationals; the last-watched field is an ISO-8601
  string whose lexicographic order agrees with chronological order, so it is
  modelled as a natural number with the usual order.
* The remote backend (an external record store reached through an SDK) is
  modelled per the specification's interface section: per record kind it
  offers list (filter, order, limit), create and update, and each remote call
  can independently fail.  Failures are driven by an oracle, a function from
  the index of the remote call to a Bool (true means the call succeeds).
* localStorage is a string-keyed store.  The facade uses the disjoint key
  families video_sessions_<userId> and pause_insights_<sessionId>, which are
  modelled as two association lists keyed by userId resp. sessionId.  A stored
  value is either a JSON string that decodes to a record list or a string that
  JSON.parse rejects.
* A thrown JavaScript exception is modelled as Except.error.
-/

namespace PauseLearn

/-- Flashcard entry: a question and answer pair, as in the source interface. -/
structure Flashcard where
  question : String
  answer : String
deriving DecidableEq, Repr

/-- Quiz question: question text, options list, correct-option index. -/
structure QuizQuestion where
  question : String
  options : List String
  correct : Nat
deriving DecidableEq, Repr

/-- In-memory VideoSession record, snake_case field names as in the source
interface.  progress and duration are JS numbers (rationals); last_watched is
an ISO-8601 string modelled as a Nat with the chronological order. -/
structure VideoSession where
  id : String
  video_id : String
  title : String
  thumbnail : String
  progress : ℚ
  duration : ℚ
  last_watched : Nat
  user_id : String
deriving DecidableEq, Repr

/-- In-memory PauseInsight record, snake_case field names as in the source
interface. -/
structure PauseInsight where
  id : String
  session_id : String
  timestamp : ℚ
  summary : String
  flashcards : List Flashcard
  quiz_questions : List QuizQuestion
  user_id : String
  created_at : String
deriving DecidableEq, Repr

/-- Wire-format session record: exactly the camelCase payload that
saveVideoSession sends to blink.db.videoSessions.create. -/
structure RemoteSession where
  id : String
  videoId : String
  title : String
  thumbnail : String
  progress : ℚ
  duration : ℚ
  lastWatched : Nat
  userId : String
deriving DecidableEq, Repr

/-- Wire-format insight record: exactly the camelCase payload that
savePauseInsight sends to blink.db.pauseInsights.create. -/
structure RemoteInsight where
  id : String
  sessionId : String
  timestamp : ℚ
  summary : String
  flashcards : List Flashcard
  quizQuestions : List QuizQuestion
  userId : String
  createdAt : String
deriving DecidableEq, Repr

/-- The create payload of saveVideoSession (source: the camelCase conversion
in the create call). -/
def toWireSession (s : VideoSession) : RemoteSession :=
  { id := s.id
    videoId := s.video_id
    title := s.title
    thumbnail := s.thumbnail
    progress := s.progress
    duration := s.duration
    lastWatched := s.last_watched
    userId := s.user_id }

/-- Modelled from the spec: the read-direction field translation at the remote
store boundary.  The SDK's list results deliver each persisted field back
under its in-memory snake_case name (the facade's callers and its declared
return types consume snake_case fields); this inverse mapping is not in the
repository source, so it is taken from the specification's external-interface
section, which requires the boundary translation to be exact and bidirectional
for every persisted field. -/
def fromWireSession (r : RemoteSession) : VideoSession :=
  { id := r.id
    video_id := r.videoId
    title := r.title
    thumbnail := r.thumbnail
    progress := r.progress
    duration := r.duration
    last_watched := r.lastWatched
    user_id := r.userId }

/-- The create payload of savePauseInsight (source: the camelCase conversion
in the create call). -/
def toWireInsight (i : PauseInsight) : RemoteInsight :=
  { id := i.id
    sessionId := i.session_id
    timestamp := i.timestamp
    summary := i.summary
    flashcards := i.flashcards
    quizQuestions := i.quiz_questions
    userId := i.user_id
    createdAt := i.created_at }

/-- Modelled from the spec: read-direction translation for insight records,
analogous to fromWireSession. -/
def fromWireInsight (r : RemoteInsight) : PauseInsight :=
  { id := r.id
    session_id := r.sessionId
    timestamp := r.timestamp
    summary := r.summary
    flashcards := r.flashcards
    quiz_questions := r.quizQuestions
    user_id := r.userId
    created_at := r.createdAt }

/-- The update payload of saveVideoSession: only title, progress, duration and
lastWatched are sent to blink.db.videoSessions.update. -/
def updateRemoteSession (r : RemoteSession) (s : VideoSession) : RemoteSession :=
  { r with
    title := s.title
    progress := s.progress
    duration := s.duration
    lastWatched := s.last_watched }

/-- One localStorage cell: either a JSON string decoding to a record list, or
a string JSON.parse rejects. -/
inductive LocalCell (α : Type) where
  | parsed (l : List α)
  | malformed
deriving DecidableEq

/-- Association-list lookup for the localStorage model. -/
def lookupKey {α : Type} (m : List (String × α)) (k : String) : Option α :=
  (m.find? (fun p => p.1 == k)).map (fun p => p.2)

/-- Association-list write (localStorage.setItem): the key is bound to the new
value, earlier bindings for it are dropped. -/
def setKey {α : Type} (m : List (String × α)) (k : String) (v : α) :
    List (String × α) :=
  (k, v) :: m.filter (fun p => p.1 != k)

/-- State of the StorageManager instance plus both storage media.  calls
counts remote calls issued so far (the index fed to the failure oracle). -/
structure StorageState where
  dbAvailable : Bool
  remoteSessions : List RemoteSession
  remoteInsights : List RemoteInsight
  localSessions : List (String × LocalCell VideoSession)
  localInsights : List (String × LocalCell PauseInsight)
  calls : Nat
deriving DecidableEq

/-- Fresh state: dbAvailable is initialized optimistic (true), both stores
empty. -/
def initState : StorageState :=
  { dbAvailable := true
    remoteSessions := []
    remoteInsights := []
    localSessions := []
    localInsights := []
    calls := 0 }

/-- Oracle under which every remote call succeeds. -/
def allOk : Nat → Bool := fun _ => true

/-- Oracle under which every remote call fails. -/
def allFail : Nat → Bool := fun _ => false

/-- Descending last-watched order used by the remote session query. -/
def lwDesc (a b : RemoteSession) : Prop := b.lastWatched ≤ a.lastWatched

instance : DecidableRel lwDesc := fun a b => Nat.decLe b.lastWatched a.lastWatched

instance : IsTotal RemoteSession lwDesc := ⟨fun a b => Nat.le_total b.lastWatched a.lastWatched⟩

instance : IsTrans RemoteSession lwDesc := ⟨fun _ _ _ h h' => le_trans h' h⟩

/-- Ascending timestamp order used by the remote insight query. -/
def tsAsc (a b : RemoteInsight) : Prop := a.timestamp ≤ b.timestamp

instance : DecidableRel tsAsc := fun a b => inferInstanceAs (Decidable (a.timestamp ≤ b.timestamp))

instance : IsTotal RemoteInsight tsAsc := ⟨fun a b => le_total a.timestamp b.timestamp⟩

instance : IsTrans RemoteInsight tsAsc := ⟨fun _ _ _ h h' => le_trans h h'⟩

/-- Modelled from the spec: the remote store's session query as issued by
getVideoSessions - filter by owner, order by lastWatched descending, limit 20,
each result delivered under in-memory field names. -/
def remoteListSessions (db : List RemoteSession) (userId : String) : List VideoSession :=
  (((db.filter (fun r => r.userId == userId)).insertionSort lwDesc).take 20).map fromWireSession

/-- Modelled from the spec: the remote store's insight query as issued by
getPauseInsights - filter by session, order by timestamp ascending, no limit. -/
def remoteListInsights (db : List RemoteInsight) (sessionId : String) : List PauseInsight :=
  ((db.filter (fun r => r.sessionId == sessionId)).insertionSort tsAsc).map fromWireInsight

/-- checkDatabaseAvailability: issue one probe (a bounded list call on the
session table, result discarded); on success set the flag true and return
true, on any failure set it false and return false (error classification only
affects logging). -/
def checkDatabaseAvailability (env : Nat → Bool) (st : StorageState) :
    Bool × StorageState :=
  let ok := env st.calls
  (ok, { st with calls := st.calls + 1, dbAvailable := ok })

/-- The localStorage branch of getVideoSessions: absent key yields the empty
list; a malformed stored string makes JSON.parse throw. -/
def localGetSessions (userId : String) (st : StorageState) :
    Except Unit (List VideoSession) × StorageState :=
  match lookupKey st.localSessions userId with
  | none => (Except.ok [], st)
  | some (LocalCell.parsed l) => (Except.ok l, st)
  | some LocalCell.malformed => (Except.error (), st)

/-- getVideoSessions: re-probe availability, then query the remote store
(falling back to localStorage on a mid-call failure after flipping the flag),
else read localStorage directly. -/
def getVideoSessions (env : Nat → Bool) (userId : String) (st : StorageState) :
    Except Unit (List VideoSession) × StorageState :=
  let st1 := (checkDatabaseAvailability env st).2
  if st1.dbAvailable then
    let ok := env st1.calls
    let st2 := { st1 with calls := st1.calls + 1 }
    if ok then (Except.ok (remoteListSessions st2.remoteSessions userId), st2)
    else localGetSessions userId { st2 with dbAvailable := false }
  else localGetSessions userId st1

/-- The localStorage branch of saveVideoSession: reload the caller-visible
list through getVideoSessions (which re-probes), replace the entry matching
video_id in place if present else prepend, truncate to 20 and store. -/
def localSaveSession (env : Nat → Bool) (s : VideoSession) (st : StorageState) :
    Except Unit Unit × StorageState :=
  match getVideoSessions env s.user_id st with
  | (Except.error e, st') => (Except.error e, st')
  | (Except.ok sessions, st') =>
    let merged :=
      match sessions.findIdx? (fun x => x.video_id == s.video_id) with
      | some i => sessions.set i s
      | none => s :: sessions
    (Except.ok (),
      { st' with
        localSessions :=
          setKey st'.localSessions s.user_id (LocalCell.parsed (merged.take 20)) })

/-- saveVideoSession: re-probe, and if available look up an existing record
for (videoId, userId); update it in place if found else create; any remote
failure flips the flag and falls through to the localStorage branch within
the same call. -/
def saveVideoSession (env : Nat → Bool) (s : VideoSession) (st : StorageState) :
    Except Unit Unit × StorageState :=
  let st1 := (checkDatabaseAvailability env st).2
  if st1.dbAvailable then
    let ok := env st1.calls
    let st2 := { st1 with calls := st1.calls + 1 }
    if ok then
      match (st2.remoteSessions.filter
          (fun r => r.videoId == s.video_id && r.userId == s.user_id)).take 1 with
      | r :: _ =>
        let ok2 := env st2.calls
        let st3 := { st2 with calls := st2.calls + 1 }
        if ok2 then
          (Except.ok (),
            { st3 with
              remoteSessions :=
                st3.remoteSessions.map
                  (fun x => if x.id == r.id then updateRemoteSession x s else x) })
        else localSaveSession env s { st3 with dbAvailable := false }
      | [] =>
        let ok2 := env st2.calls
        let st3 := { st2 with calls := st2.calls + 1 }
        if ok2 then
          (Except.ok (), { st3 with remoteSessions := st3.remoteSessions ++ [toWireSession s] })
        else localSaveSession env s { st3 with dbAvailable := false }
    else localSaveSession env s { st2 with dbAvailable := false }
  else localSaveSession env s st1

/-- The localStorage branch of getPauseInsights. -/
def localGetInsights (sessionId : String) (st : StorageState) :
    Except Unit (List PauseInsight) × StorageState :=
  match lookupKey st.localInsights sessionId with
  | none => (Except.ok [], st)
  | some (LocalCell.parsed l) => (Except.ok l, st)
  | some LocalCell.malformed => (Except.error (), st)

/-- getPauseInsights: re-probe, query the remote store ordered ascending by
timestamp, fall back to localStorage on failure. -/
def getPauseInsights (env : Nat → Bool) (sessionId : String) (st : StorageState) :
    Except Unit (List PauseInsight) × StorageState :=
  let st1 := (checkDatabaseAvailability env st).2
  if st1.dbAvailable then
    let ok := env st1.calls
    let st2 := { st1 with calls := st1.calls + 1 }
    if ok then (Except.ok (remoteListInsights st2.remoteInsights sessionId), st2)
    else localGetInsights sessionId { st2 with dbAvailable := false }
  else localGetInsights sessionId st1

/-- The localStorage branch of savePauseInsight: reload through
getPauseInsights (which re-probes), push the new insight and store. -/
def localSaveInsight (env : Nat → Bool) (i : PauseInsight) (st : StorageState) :
    Except Unit Unit × StorageState :=
  match getPauseInsights env i.session_id st with
  | (Except.error e, st') => (Except.error e, st')
  | (Except.ok insights, st') =>
    (Except.ok (),
      { st' with
        localInsights :=
          setKey st'.localInsights i.session_id (LocalCell.parsed (insights ++ [i])) })

/-- savePauseInsight: re-probe, create the wire-format record remotely if
available, else (or on failure) fall through to the localStorage branch. -/
def savePauseInsight (env : Nat → Bool) (i : PauseInsight) (st : StorageState) :
    Except Unit Unit × StorageState :=
  let st1 := (checkDatabaseAvailability env st).2
  if st1.dbAvailable then
    let ok := env st1.calls
    let st2 := { st1 with calls := st1.calls + 1 }
    if ok then
      (Except.ok (), { st2 with remoteInsights := st2.remoteInsights ++ [toWireInsight i] })
    else localSaveInsight env i { st2 with dbAvailable := false }
  else localSaveInsight env i st1

/-- isDatabaseAvailable: pure accessor of the reachability flag. -/
def isDatabaseAvailable (st : StorageState) : Bool := st.dbAvailable

/-- One facade operation. -/
inductive Op where
  | listSessions (userId : String)
  | saveSession (s : VideoSession)
  | listInsights (sessionId : String)
  | saveInsight (i : PauseInsight)
deriving DecidableEq

/-- Caller-observable outcome of one facade operation; jsError is a thrown
exception. -/
inductive OpResult where
  | sessions (l : List VideoSession)
  | insights (l : List PauseInsight)
  | unit
  | jsError
deriving DecidableEq

/-- Run one facade operation. -/
def runOp (env : Nat → Bool) (st : StorageState) : Op → OpResult × StorageState
  | Op.listSessions u =>
    match getVideoSessions env u st with
    | (Except.ok l, st') => (OpResult.sessions l, st')
    | (Except.error _, st') => (OpResult.jsError, st')
  | Op.saveSession s =>
    match saveVideoSession env s st with
    | (Except.ok _, st') => (OpResult.unit, st')
    | (Except.error _, st') => (OpResult.jsError, st')
  | Op.listInsights sid =>
    match getPauseInsights env sid st with
    | (Except.ok l, st') => (OpResult.insights l, st')
    | (Except.error _, st') => (OpResult.jsError, st')
  | Op.saveInsight i =>
    match savePauseInsight env i st with
    | (Except.ok _, st') => (OpResult.unit, st')
    | (Except.error _, st') => (OpResult.jsError, st')

/-- Run a sequence of facade operations, collecting the observable results. -/
def runOps (env : Nat → Bool) : List Op → StorageState → List OpResult × StorageState
  | [], st => ([], st)
  | op :: ops, st =>
    let r := runOp env st op
    let rs := runOps env ops r.2
    (r.1 :: rs.1, rs.2)

/-- Observable outcome of the video player's pause handler. -/
inductive PauseAction where
  | noInsight
  | generateInsight (timestamp : ℚ)
deriving DecidableEq

/-- handlePause of the VideoPlayer component: a pause before 30 seconds of
playback returns immediately; otherwise AI insight generation is attempted.
The current playback time is a JS number, modelled as a rational. -/
def handlePause (timestamp : ℚ) : PauseAction :=
  if timestamp < 30 then PauseAction.noInsight else PauseAction.generateInsight timestamp

/-! Concrete fixtures used to exercise the facade on specific inputs. -/

/-- A session for user u1, video v1, last watched at time 2. -/
def cexSessA : VideoSession := ⟨"a", "v1", "tA", "th", 0, 600, 2, "u1"⟩

/-- A session for user u1, video v2, last watched at time 1 (earlier than
cexSessA though saved after it). -/
def cexSessB : VideoSession := ⟨"b", "v2", "tB", "th", 0, 600, 1, "u1"⟩

/-- A re-save of the (u1, v1) pair carrying a different record id and a
different thumbnail from cexSessA. -/
def cexSessA2 : VideoSession := ⟨"b", "v1", "tB2", "th2", 120, 600, 2, "u1"⟩

/-- An insight for session sess1 at pause timestamp 90. -/
def cexIns90 : PauseInsight := ⟨"i90", "sess1", 90, "s90", [], [], "u1", "c1"⟩

/-- An insight for session sess1 at pause timestamp 30, saved after the one at
90. -/
def cexIns30 : PauseInsight := ⟨"i30", "sess1", 30, "s30", [], [], "u1", "c2"⟩

/-- First save of the specification's concrete scenario: progress 0, last
watched T1 = 1. -/
def specSess1 : VideoSession := ⟨"s1", "v1", "Title", "th", 0, 600, 1, "u1"⟩

/-- Second save of the specification's concrete scenario: same id, video and
user, progress 120, last watched T2 = 2. -/
def specSess2 : VideoSession := ⟨"s1", "v1", "Title", "th", 120, 600, 2, "u1"⟩

/-- The operation list of the specification's concrete scenario 6. -/
def specScenario6 : List Op :=
  [Op.saveSession specSess1, Op.saveSession specSess2, Op.listSessions "u1"]

/-- Backend behavior in which exactly the second remote call fails: the
initial probe of a save succeeds, its remote write fails, and the re-probe
and re-read issued by the fallback succeed again. -/
def failSecondCall : Nat → Bool := fun n => n != 1

/-- A state holding one insight for sess1 in local storage only (saved during
an earlier outage), with an empty remote store. -/
def flapInsightState : StorageState :=
  { initState with localInsights := [("sess1", LocalCell.parsed [cexIns30])] }

/-- An already-stored remote session for user u1, video v0. -/
def c10SessOld : VideoSession := ⟨"s0", "v0", "T0", "th0", 5, 600, 3, "u1"⟩

/-- A new session for user u1, video vN, to be saved while the backend flaps. -/
def c10SessNew : VideoSession := ⟨"sN", "vN", "TN", "thN", 7, 500, 9, "u1"⟩

/-- A state whose remote store holds c10SessOld and whose local store is
empty. -/
def c10State : StorageState := { initState with remoteSessions := [toWireSession c10SessOld] }

/-- An already-stored remote insight for sess1. -/
def c10InsOld : PauseInsight := ⟨"iOld", "sess1", 10, "sO", [], [], "u1", "c0"⟩

/-- A state whose remote store holds c10InsOld and whose local store is
empty. -/
def c10StateIns : StorageState := { initState with remoteInsights := [toWireInsight c10InsOld] }

/-- A state whose local cells for user u1 and session sess1 hold strings that
JSON.parse rejects. -/
def malformedState : StorageState :=
  { initState with
    localSessions := [("u1", LocalCell.malformed)]
    localInsights := [("sess1", LocalCell.malformed)] }

/-- Well-formedness of the local session cells: every stored value decodes
and holds at most 20 records (as saveVideoSession writes). -/
def SessionsWF (st : StorageState) : Prop :=
  ∀ p ∈ st.localSessions, ∃ l, p.2 = LocalCell.parsed l ∧ l.length ≤ 20

/-- Well-formedness of the local insight cells: every stored value decodes. -/
def InsightsParsed (st : StorageState) : Prop :=
  ∀ p ∈ st.localInsights, ∃ l, p.2 = LocalCell.parsed l

/-- Combined reachable-state invariant of the facade's local storage. -/
def Inv (st : StorageState) : Prop := SessionsWF st ∧ InsightsParsed st

/-! Basic lemmas about the localStorage model. -/

theorem lookupKey_setKey_self {α : Type} (m : List (String × α)) (k : String) (v : α) :
    lookupKey (setKey m k v) k = some v := by
  simp [lookupKey, setKey, List.find?]

theorem find?_filter_ne {α : Type} (m : List (String × α)) (k k' : String) (h : k' ≠ k) :
    (m.filter (fun p => p.1 != k)).find? (fun p => p.1 == k') =
      m.find? (fun p => p.1 == k') := by
  induction m with
  | nil => rfl
  | cons q m ih =>
    by_cases hq : q.1 = k
    · have h1 : (q.1 != k) = false := by simp [hq]
      have h2 : (q.1 == k') = false := by
        simp only [beq_eq_false_iff_ne]
        rw [hq]
        exact fun hc => h hc.symm
      rw [List.filter_cons, h1, if_neg (by simp), List.find?_cons, h2, ih]
    · have h1 : (q.1 != k) = true := by simp [hq]
      rw [List.filter_cons, h1, if_pos rfl]
      cases h2 : (q.1 == k') with
      | true => rw [List.find?_cons, h2, List.find?_cons, h2]
      | false => rw [List.find?_cons, h2, List.find?_cons, h2, ih]

theorem lookupKey_setKey_ne {α : Type} (m : List (String × α)) (k k' : String) (v : α)
    (h : k' ≠ k) : lookupKey (setKey m k v) k' = lookupKey m k' := by
  have hk : ((k, v).1 == k') = false := by
    simp only [beq_eq_false_iff_ne]
    exact fun hc => h hc.symm
  unfold lookupKey setKey
  rw [List.find?_cons, hk, find?_filter_ne m k k' h]

theorem lookupKey_mem {α : Type} (m : List (String × α)) (k : String) (v : α)
    (h : lookupKey m k = some v) : ∃ p ∈ m, p.2 = v := by
  unfold lookupKey at h
  cases hf : m.find? (fun p => p.1 == k) with
  | none => rw [hf] at h; simp at h
  | some p =>
    rw [hf] at h
    simp at h
    exact ⟨p, List.mem_of_find?_eq_some hf, h⟩

/-! State-shape lemmas for the read operations. -/

theorem localGetSessions_snd (u : String) (st : StorageState) :
    (localGetSessions u st).2 = st := by
  cases h : lookupKey st.localSessions u with
  | none => simp [localGetSessions, h]
  | some c => cases c <;> simp [localGetSessions, h]

theorem localGetInsights_snd (sid : String) (st : StorageState) :
    (localGetInsights sid st).2 = st := by
  cases h : lookupKey st.localInsights sid with
  | none => simp [localGetInsights, h]
  | some c => cases c <;> simp [localGetInsights, h]

/-! Path-equation lemmas: how each operation unfolds under a known oracle
verdict for the remote calls it issues. -/

theorem getVideoSessions_allFail (u : String) (st : StorageState) :
    getVideoSessions allFail u st =
      localGetSessions u { st with
        dbAvailable := false
        calls := st.calls + 1 } := by
  simp [getVideoSessions, checkDatabaseAvailability, allFail]

theorem getPauseInsights_allFail (sid : String) (st : StorageState) :
    getPauseInsights allFail sid st =
      localGetInsights sid { st with
        dbAvailable := false
        calls := st.calls + 1 } := by
  simp [getPauseInsights, checkDatabaseAvailability, allFail]

theorem saveVideoSession_allFail (s : VideoSession) (st : StorageState) :
    saveVideoSession allFail s st =
      localSaveSession allFail s { st with
        dbAvailable := false
        calls := st.calls + 1 } := by
  simp [saveVideoSession, checkDatabaseAvailability, allFail]

theorem savePauseInsight_allFail (i : PauseInsight) (st : StorageState) :
    savePauseInsight allFail i st =
      localSaveInsight allFail i { st with
        dbAvailable := false
        calls := st.calls + 1 } := by
  simp [savePauseInsight, checkDatabaseAvailability, allFail]

theorem getVideoSessions_probeFail (env : Nat → Bool) (u : String) (st : StorageState)
    (h : env st.calls = false) :
    getVideoSessions env u st =
      localGetSessions u { st with
        dbAvailable := false
        calls := st.calls + 1 } := by
  simp [getVideoSessions, checkDatabaseAvailability, h]

theorem getPauseInsights_probeFail (env : Nat → Bool) (sid : String) (st : StorageState)
    (h : env st.calls = false) :
    getPauseInsights env sid st =
      localGetInsights sid { st with
        dbAvailable := false
        calls := st.calls + 1 } := by
  simp [getPauseInsights, checkDatabaseAvailability, h]

theorem getVideoSessions_remote (env : Nat → Bool) (u : String) (st : StorageState)
    (h1 : env st.calls = true) (h2 : env (st.calls + 1) = true) :
    getVideoSessions env u st =
      (Except.ok (remoteListSessions st.remoteSessions u),
        { st with
          dbAvailable := true
          calls := st.calls + 1 + 1 }) := by
  simp [getVideoSessions, checkDatabaseAvailability, h1, h2]

theorem getPauseInsights_remote (env : Nat → Bool) (sid : String) (st : StorageState)
    (h1 : env st.calls = true) (h2 : env (st.calls + 1) = true) :
    getPauseInsights env sid st =
      (Except.ok (remoteListInsights st.remoteInsights sid),
        { st with
          dbAvailable := true
          calls := st.calls + 1 + 1 }) := by
  simp [getPauseInsights, checkDatabaseAvailability, h1, h2]

theorem savePauseInsight_allOk (i : PauseInsight) (st : StorageState) :
    savePauseInsight allOk i st =
      (Except.ok (),
        { st with
          dbAvailable := true
          calls := st.calls + 1 + 1
          remoteInsights := st.remoteInsights ++ [toWireInsight i] }) := by
  simp [savePauseInsight, checkDatabaseAvailability, allOk]

theorem saveVideoSession_allOk_existing (s : VideoSession) (st : StorageState)
    (r : RemoteSession) (rs : List RemoteSession)
    (h : (st.remoteSessions.filter
        (fun x => x.videoId == s.video_id && x.userId == s.user_id)).take 1 = r :: rs) :
    saveVideoSession allOk s st =
      (Except.ok (),
        { st with
          dbAvailable := true
          calls := st.calls + 1 + 1 + 1
          remoteSessions :=
            st.remoteSessions.map
              (fun x => if x.id == r.id then updateRemoteSession x s else x) }) := by
  simp [saveVideoSession, checkDatabaseAvailability, allOk, h]

theorem saveVideoSession_allOk_new (s : VideoSession) (st : StorageState)
    (h : (st.remoteSessions.filter
        (fun x => x.videoId == s.video_id && x.userId == s.user_id)).take 1 = []) :
    saveVideoSession allOk s st =
      (Except.ok (),
        { st with
          dbAvailable := true
          calls := st.calls + 1 + 1 + 1
          remoteSessions := st.remoteSessions ++ [toWireSession s] }) := by
  simp [saveVideoSession, checkDatabaseAvailability, allOk, h]

theorem saveVideoSession_allFail_parsed (s : VideoSession) (st : StorageState)
    (l : List VideoSession)
    (h : lookupKey st.localSessions s.user_id = some (LocalCell.parsed l)) :
    saveVideoSession allFail s st =
      (Except.ok (),
        { st with
          dbAvailable := false
          calls := st.calls + 1 + 1
          localSessions :=
            setKey st.localSessions s.user_id
              (LocalCell.parsed
                ((match l.findIdx? (fun x : VideoSession => x.video_id == s.video_id) with
                  | some i => l.set i s
                  | none => s :: l).take 20)) }) := by
  rw [saveVideoSession_allFail]
  simp [localSaveSession, getVideoSessions_allFail, localGetSessions, h]

theorem saveVideoSession_allFail_none (s : VideoSession) (st : StorageState)
    (h : lookupKey st.localSessions s.user_id = none) :
    saveVideoSession allFail s st =
      (Except.ok (),
        { st with
          dbAvailable := false
          calls := st.calls + 1 + 1
          localSessions :=
            setKey st.localSessions s.user_id (LocalCell.parsed [s]) }) := by
  rw [saveVideoSession_allFail]
  simp [localSaveSession, getVideoSessions_allFail, localGetSessions, h]

theorem savePauseInsight_allFail_parsed (i : PauseInsight) (st : StorageState)
    (l : List PauseInsight)
    (h : lookupKey st.localInsights i.session_id = some (LocalCell.parsed l)) :
    savePauseInsight allFail i st =
      (Except.ok (),
        { st with
          dbAvailable := false
          calls := st.calls + 1 + 1
          localInsights :=
            setKey st.localInsights i.session_id (LocalCell.parsed (l ++ [i])) }) := by
  rw [savePauseInsight_allFail]
  simp [localSaveInsight, getPauseInsights_allFail, localGetInsights, h]

theorem savePauseInsight_allFail_none (i : PauseInsight) (st : StorageState)
    (h : lookupKey st.localInsights i.session_id = none) :
    savePauseInsight allFail i st =
      (Except.ok (),
        { st with
          dbAvailable := false
          calls := st.calls + 1 + 1
          localInsights :=
            setKey st.localInsights i.session_id (LocalCell.parsed [i]) }) := by
  rw [savePauseInsight_allFail]
  simp [localSaveInsight, getPauseInsights_allFail, localGetInsights, h]

/-! Shape lemmas for the remote query results. -/

theorem remoteListSessions_sorted (db : List RemoteSession) (u : String) :
    (remoteListSessions db u).Sorted
      (fun a b : VideoSession => b.last_watched ≤ a.last_watched) := by
  unfold remoteListSessions
  refine List.Pairwise.map fromWireSession (fun a b hab => hab) ?_
  exact ((List.sorted_insertionSort lwDesc _).sublist (List.take_sublist _ _))

theorem remoteListSessions_length (db : List RemoteSession) (u : String) :
    (remoteListSessions db u).length ≤ 20 := by
  unfold remoteListSessions
  rw [List.length_map]
  exact List.length_take_le _ _

theorem remoteListInsights_sorted (db : List RemoteInsight) (sid : String) :
    (remoteListInsights db sid).Sorted
      (fun a b : PauseInsight => a.timestamp ≤ b.timestamp) := by
  unfold remoteListInsights
  exact List.Pairwise.map fromWireInsight (fun a b hab => hab)
    (List.sorted_insertionSort tsAsc _)

/-! Store-preservation lemmas: read operations never write either medium, and
local write operations never touch the remote store or the other local key
family. -/

theorem getVideoSessions_stores (env : Nat → Bool) (u : String) (st : StorageState) :
    ((getVideoSessions env u st).2).remoteSessions = st.remoteSessions ∧
      ((getVideoSessions env u st).2).remoteInsights = st.remoteInsights ∧
      ((getVideoSessions env u st).2).localSessions = st.localSessions ∧
      ((getVideoSessions env u st).2).localInsights = st.localInsights := by
  cases h1 : env st.calls with
  | false =>
    rw [getVideoSessions_probeFail env u st h1, localGetSessions_snd]
    exact ⟨rfl, rfl, rfl, rfl⟩
  | true =>
    cases h2 : env (st.calls + 1) with
    | true =>
      rw [getVideoSessions_remote env u st h1 h2]
      exact ⟨rfl, rfl, rfl, rfl⟩
    | false =>
      have : getVideoSessions env u st =
          localGetSessions u
            { st with dbAvailable := false, calls := st.calls + 1 + 1 } := by
        simp [getVideoSessions, checkDatabaseAvailability, h1, h2]
      rw [this, localGetSessions_snd]
      exact ⟨rfl, rfl, rfl, rfl⟩

theorem getPauseInsights_stores (env : Nat → Bool) (sid : String) (st : StorageState) :
    ((getPauseInsights env sid st).2).remoteSessions = st.remoteSessions ∧
      ((getPauseInsights env sid st).2).remoteInsights = st.remoteInsights ∧
      ((getPauseInsights env sid st).2).localSessions = st.localSessions ∧
      ((getPauseInsights env sid st).2).localInsights = st.localInsights := by
  cases h1 : env st.calls with
  | false =>
    rw [getPauseInsights_probeFail env sid st h1, localGetInsights_snd]
    exact ⟨rfl, rfl, rfl, rfl⟩
  | true =>
    cases h2 : env (st.calls + 1) with
    | true =>
      rw [getPauseInsights_remote env sid st h1 h2]
      exact ⟨rfl, rfl, rfl, rfl⟩
    | false =>
      have : getPauseInsights env sid st =
          localGetInsights sid
            { st with dbAvailable := false, calls := st.calls + 1 + 1 } := by
        simp [getPauseInsights, checkDatabaseAvailability, h1, h2]
      rw [this, localGetInsights_snd]
      exact ⟨rfl, rfl, rfl, rfl⟩

theorem localSaveSession_stores (env : Nat → Bool) (s : VideoSession) (st : StorageState) :
    ((localSaveSession env s st).2).remoteSessions = st.remoteSessions ∧
      ((localSaveSession env s st).2).remoteInsights = st.remoteInsights ∧
      ((localSaveSession env s st).2).localInsights = st.localInsights := by
  obtain ⟨e1, e2, _, e4⟩ := getVideoSessions_stores env s.user_id st
  cases hg : getVideoSessions env s.user_id st with
  | mk res st' =>
    rw [hg] at e1 e2 e4
    cases res with
    | error e => simp [localSaveSession, hg]; exact ⟨e1, e2, e4⟩
    | ok l => simp [localSaveSession, hg]; exact ⟨e1, e2, e4⟩

theorem localSaveInsight_stores (env : Nat → Bool) (i : PauseInsight) (st : StorageState) :
    ((localSaveInsight env i st).2).remoteSessions = st.remoteSessions ∧
      ((localSaveInsight env i st).2).remoteInsights = st.remoteInsights ∧
      ((localSaveInsight env i st).2).localSessions = st.localSessions := by
  obtain ⟨e1, e2, e3, _⟩ := getPauseInsights_stores env i.session_id st
  cases hg : getPauseInsights env i.session_id st with
  | mk res st' =>
    rw [hg] at e1 e2 e3
    cases res with
    | error e => simp [localSaveInsight, hg]; exact ⟨e1, e2, e3⟩
    | ok l => simp [localSaveInsight, hg]; exact ⟨e1, e2, e3⟩

/-! General-oracle path equations for the save operations. -/

theorem saveVideoSession_probeFail (env : Nat → Bool) (s : VideoSession) (st : StorageState)
    (h : env st.calls = false) :
    saveVideoSession env s st =
      localSaveSession env s { st with dbAvailable := false, calls := st.calls + 1 } := by
  simp [saveVideoSession, checkDatabaseAvailability, h]

theorem saveVideoSession_listFail (env : Nat → Bool) (s : VideoSession) (st : StorageState)
    (h1 : env st.calls = true) (h2 : env (st.calls + 1) = false) :
    saveVideoSession env s st =
      localSaveSession env s { st with dbAvailable := false, calls := st.calls + 1 + 1 } := by
  simp [saveVideoSession, checkDatabaseAvailability, h1, h2]

theorem saveVideoSession_existing (env : Nat → Bool) (s : VideoSession) (st : StorageState)
    (r : RemoteSession) (rs : List RemoteSession)
    (h1 : env st.calls = true) (h2 : env (st.calls + 1) = true)
    (h3 : env (st.calls + 1 + 1) = true)
    (hf : (st.remoteSessions.filter
        (fun x => x.videoId == s.video_id && x.userId == s.user_id)).take 1 = r :: rs) :
    saveVideoSession env s st =
      (Except.ok (),
        { st with
          dbAvailable := true
          calls := st.calls + 1 + 1 + 1
          remoteSessions :=
            st.remoteSessions.map
              (fun x => if x.id == r.id then updateRemoteSession x s else x) }) := by
  simp [saveVideoSession, checkDatabaseAvailability, h1, h2, h3, hf]

theorem saveVideoSession_existing_fail (env : Nat → Bool) (s : VideoSession)
    (st : StorageState) (r : RemoteSession) (rs : List RemoteSession)
    (h1 : env st.calls = true) (h2 : env (st.calls + 1) = true)
    (h3 : env (st.calls + 1 + 1) = false)
    (hf : (st.remoteSessions.filter
        (fun x => x.videoId == s.video_id && x.userId == s.user_id)).take 1 = r :: rs) :
    saveVideoSession env s st =
      localSaveSession env s
        { st with dbAvailable := false, calls := st.calls + 1 + 1 + 1 } := by
  simp [saveVideoSession, checkDatabaseAvailability, h1, h2, h3, hf]

theorem saveVideoSession_new (env : Nat → Bool) (s : VideoSession) (st : StorageState)
    (h1 : env st.calls = true) (h2 : env (st.calls + 1) = true)
    (h3 : env (st.calls + 1 + 1) = true)
    (hf : (st.remoteSessions.filter
        (fun x => x.videoId == s.video_id && x.userId == s.user_id)).take 1 = []) :
    saveVideoSession env s st =
      (Except.ok (),
        { st with
          dbAvailable := true
          calls := st.calls + 1 + 1 + 1
          remoteSessions := st.remoteSessions ++ [toWireSession s] }) := by
  simp [saveVideoSession, checkDatabaseAvailability, h1, h2, h3, hf]

theorem saveVideoSession_new_fail (env : Nat → Bool) (s : VideoSession) (st : StorageState)
    (h1 : env st.calls = true) (h2 : env (st.calls + 1) = true)
    (h3 : env (st.calls + 1 + 1) = false)
    (hf : (st.remoteSessions.filter
        (fun x => x.videoId == s.video_id && x.userId == s.user_id)).take 1 = []) :
    saveVideoSession env s st =
      localSaveSession env s
        { st with dbAvailable := false, calls := st.calls + 1 + 1 + 1 } := by
  simp [saveVideoSession, checkDatabaseAvailability, h1, h2, h3, hf]

theorem savePauseInsight_probeFail (env : Nat → Bool) (i : PauseInsight) (st : StorageState)
    (h : env st.calls = false) :
    savePauseInsight env i st =
      localSaveInsight env i { st with dbAvailable := false, calls := st.calls + 1 } := by
  simp [savePauseInsight, checkDatabaseAvailability, h]

theorem savePauseInsight_createFail (env : Nat → Bool) (i : PauseInsight) (st : StorageState)
    (h1 : env st.calls = true) (h2 : env (st.calls + 1) = false) :
    savePauseInsight env i st =
      localSaveInsight env i { st with dbAvailable := false, calls := st.calls + 1 + 1 } := by
  simp [savePauseInsight, checkDatabaseAvailability, h1, h2]

theorem savePauseInsight_create (env : Nat → Bool) (i : PauseInsight) (st : StorageState)
    (h1 : env st.calls = true) (h2 : env (st.calls + 1) = true) :
    savePauseInsight env i st =
      (Except.ok (),
        { st with
          dbAvailable := true
          calls := st.calls + 1 + 1
          remoteInsights := st.remoteInsights ++ [toWireInsight i] }) := by
  simp [savePauseInsight, checkDatabaseAvailability, h1, h2]

/-! Invariant machinery: reachable local stores always decode, session cells
hold at most 20 records, and operations on such states never raise. -/

theorem sessionsWF_setKey {m : List (String × LocalCell VideoSession)} {k : String}
    {l : List VideoSession}
    (hm : ∀ p ∈ m, ∃ l0, p.2 = LocalCell.parsed l0 ∧ l0.length ≤ 20)
    (hl : l.length ≤ 20) :
    ∀ p ∈ setKey m k (LocalCell.parsed l), ∃ l0, p.2 = LocalCell.parsed l0 ∧ l0.length ≤ 20 := by
  intro p hp
  rcases List.mem_cons.mp hp with h | h
  · rw [h]
    exact ⟨l, rfl, hl⟩
  · exact hm p (List.mem_of_mem_filter h)

theorem insightsParsed_setKey {m : List (String × LocalCell PauseInsight)} {k : String}
    {l : List PauseInsight}
    (hm : ∀ p ∈ m, ∃ l0, p.2 = LocalCell.parsed l0) :
    ∀ p ∈ setKey m k (LocalCell.parsed l), ∃ l0, p.2 = LocalCell.parsed l0 := by
  intro p hp
  rcases List.mem_cons.mp hp with h | h
  · rw [h]
    exact ⟨l, rfl⟩
  · exact hm p (List.mem_of_mem_filter h)

theorem localGetSessions_ok (u : String) (st : StorageState) (hwf : SessionsWF st) :
    ∃ l, localGetSessions u st = (Except.ok l, st) ∧ l.length ≤ 20 := by
  cases h : lookupKey st.localSessions u with
  | none => exact ⟨[], by simp [localGetSessions, h], by simp⟩
  | some c =>
    obtain ⟨p, hpm, hpv⟩ := lookupKey_mem _ _ _ h
    obtain ⟨l0, hc, hlen⟩ := hwf p hpm
    rw [hpv] at hc
    rw [hc] at h
    exact ⟨l0, by simp [localGetSessions, h], hlen⟩

theorem localGetInsights_ok (sid : String) (st : StorageState) (hwf : InsightsParsed st) :
    ∃ l, localGetInsights sid st = (Except.ok l, st) := by
  cases h : lookupKey st.localInsights sid with
  | none => exact ⟨[], by simp [localGetInsights, h]⟩
  | some c =>
    obtain ⟨p, hpm, hpv⟩ := lookupKey_mem _ _ _ h
    obtain ⟨l0, hc⟩ := hwf p hpm
    rw [hpv] at hc
    rw [hc] at h
    exact ⟨l0, by simp [localGetInsights, h]⟩

theorem getVideoSessions_ok (env : Nat → Bool) (u : String) (st : StorageState)
    (hwf : SessionsWF st) :
    ∃ l, (getVideoSessions env u st).1 = Except.ok l ∧ l.length ≤ 20 := by
  cases h1 : env st.calls with
  | false =>
    rw [getVideoSessions_probeFail env u st h1]
    obtain ⟨l, he, hlen⟩ := localGetSessions_ok u
      { st with dbAvailable := false, calls := st.calls + 1 } hwf
    exact ⟨l, by rw [he], hlen⟩
  | true =>
    cases h2 : env (st.calls + 1) with
    | true =>
      rw [getVideoSessions_remote env u st h1 h2]
      exact ⟨remoteListSessions st.remoteSessions u, rfl, remoteListSessions_length _ _⟩
    | false =>
      have heq : getVideoSessions env u st =
          localGetSessions u
            { st with dbAvailable := false, calls := st.calls + 1 + 1 } := by
        simp [getVideoSessions, checkDatabaseAvailability, h1, h2]
      rw [heq]
      obtain ⟨l, he, hlen⟩ := localGetSessions_ok u
        { st with dbAvailable := false, calls := st.calls + 1 + 1 } hwf
      exact ⟨l, by rw [he], hlen⟩

theorem getPauseInsights_ok (env : Nat → Bool) (sid : String) (st : StorageState)
    (hwf : InsightsParsed st) :
    ∃ l, (getPauseInsights env sid st).1 = Except.ok l := by
  cases h1 : env st.calls with
  | false =>
    rw [getPauseInsights_probeFail env sid st h1]
    obtain ⟨l, he⟩ := localGetInsights_ok sid
      { st with dbAvailable := false, calls := st.calls + 1 } hwf
    exact ⟨l, by rw [he]⟩
  | true =>
    cases h2 : env (st.calls + 1) with
    | true =>
      rw [getPauseInsights_remote env sid st h1 h2]
      exact ⟨remoteListInsights st.remoteInsights sid, rfl⟩
    | false =>
      have heq : getPauseInsights env sid st =
          localGetInsights sid
            { st with dbAvailable := false, calls := st.calls + 1 + 1 } := by
        simp [getPauseInsights, checkDatabaseAvailability, h1, h2]
      rw [heq]
      obtain ⟨l, he⟩ := localGetInsights_ok sid
        { st with dbAvailable := false, calls := st.calls + 1 + 1 } hwf
      exact ⟨l, by rw [he]⟩

theorem localSaveSession_ok (env : Nat → Bool) (s : VideoSession) (st : StorageState)
    (hwf : SessionsWF st) :
    (localSaveSession env s st).1 = Except.ok () ∧
      SessionsWF (localSaveSession env s st).2 ∧
      ((localSaveSession env s st).2).localInsights = st.localInsights := by
  obtain ⟨l, hok, _⟩ := getVideoSessions_ok env s.user_id st hwf
  obtain ⟨e1, e2, e3, e4⟩ := getVideoSessions_stores env s.user_id st
  cases hg : getVideoSessions env s.user_id st with
  | mk res st2 =>
    rw [hg] at hok e3 e4
    cases res with
    | error e => exact absurd hok (by simp)
    | ok l' =>
      refine ⟨by simp [localSaveSession, hg], ?_, by simp [localSaveSession, hg]; exact e4⟩
      simp only [localSaveSession, hg]
      intro p hp
      refine sessionsWF_setKey ?_ (List.length_take_le _ _) p hp
      rw [e3]
      exact hwf

theorem localSaveInsight_ok (env : Nat → Bool) (i : PauseInsight) (st : StorageState)
    (hwf : InsightsParsed st) :
    (localSaveInsight env i st).1 = Except.ok () ∧
      InsightsParsed (localSaveInsight env i st).2 ∧
      ((localSaveInsight env i st).2).localSessions = st.localSessions := by
  obtain ⟨l, hok⟩ := getPauseInsights_ok env i.session_id st hwf
  obtain ⟨e1, e2, e3, e4⟩ := getPauseInsights_stores env i.session_id st
  cases hg : getPauseInsights env i.session_id st with
  | mk res st2 =>
    rw [hg] at hok e3 e4
    cases res with
    | error e => exact absurd hok (by simp)
    | ok l' =>
      refine ⟨by simp [localSaveInsight, hg], ?_, by simp [localSaveInsight, hg]; exact e3⟩
      simp only [localSaveInsight, hg]
      intro p hp
      refine insightsParsed_setKey ?_ p hp
      rw [e4]
      exact hwf

theorem saveVideoSession_ok (env : Nat → Bool) (s : VideoSession) (st : StorageState)
    (hwf : SessionsWF st) :
    (saveVideoSession env s st).1 = Except.ok () ∧
      SessionsWF (saveVideoSession env s st).2 ∧
      ((saveVideoSession env s st).2).localInsights = st.localInsights := by
  cases h1 : env st.calls with
  | false =>
    rw [saveVideoSession_probeFail env s st h1]
    exact localSaveSession_ok env s _ hwf
  | true =>
    cases h2 : env (st.calls + 1) with
    | false =>
      rw [saveVideoSession_listFail env s st h1 h2]
      exact localSaveSession_ok env s _ hwf
    | true =>
      cases hf : (st.remoteSessions.filter
          (fun x => x.videoId == s.video_id && x.userId == s.user_id)).take 1 with
      | nil =>
        cases h3 : env (st.calls + 1 + 1) with
        | true =>
          rw [saveVideoSession_new env s st h1 h2 h3 hf]
          exact ⟨rfl, hwf, rfl⟩
        | false =>
          rw [saveVideoSession_new_fail env s st h1 h2 h3 hf]
          exact localSaveSession_ok env s _ hwf
      | cons r rs =>
        cases h3 : env (st.calls + 1 + 1) with
        | true =>
          rw [saveVideoSession_existing env s st r rs h1 h2 h3 hf]
          exact ⟨rfl, hwf, rfl⟩
        | false =>
          rw [saveVideoSession_existing_fail env s st r rs h1 h2 h3 hf]
          exact localSaveSession_ok env s _ hwf

theorem savePauseInsight_ok (env : Nat → Bool) (i : PauseInsight) (st : StorageState)
    (hwf : InsightsParsed st) :
    (savePauseInsight env i st).1 = Except.ok () ∧
      InsightsParsed (savePauseInsight env i st).2 ∧
      ((savePauseInsight env i st).2).localSessions = st.localSessions := by
  cases h1 : env st.calls with
  | false =>
    rw [savePauseInsight_probeFail env i st h1]
    exact localSaveInsight_ok env i _ hwf
  | true =>
    cases h2 : env (st.calls + 1) with
    | false =>
      rw [savePauseInsight_createFail env i st h1 h2]
      exact localSaveInsight_ok env i _ hwf
    | true =>
      rw [savePauseInsight_create env i st h1 h2]
      exact ⟨rfl, hwf, rfl⟩

theorem runOp_inv (env : Nat → Bool) (st : StorageState) (op : Op) (hinv : Inv st) :
    (runOp env st op).1 ≠ OpResult.jsError ∧ Inv (runOp env st op).2 := by
  obtain ⟨hs, hi⟩ := hinv
  cases op with
  | listSessions u =>
    obtain ⟨l, hok, _⟩ := getVideoSessions_ok env u st hs
    obtain ⟨_, _, e3, e4⟩ := getVideoSessions_stores env u st
    cases hg : getVideoSessions env u st with
    | mk res st2 =>
      rw [hg] at hok e3 e4
      cases res with
      | error e => exact absurd hok (by simp)
      | ok l' =>
        refine ⟨by simp [runOp, hg], ?_⟩
        rw [show (runOp env st (Op.listSessions u)).2 = st2 by simp [runOp, hg]]
        constructor
        · intro p hp
          rw [e3] at hp
          exact hs p hp
        · intro p hp
          rw [e4] at hp
          exact hi p hp
  | listInsights sid =>
    obtain ⟨l, hok⟩ := getPauseInsights_ok env sid st hi
    obtain ⟨_, _, e3, e4⟩ := getPauseInsights_stores env sid st
    cases hg : getPauseInsights env sid st with
    | mk res st2 =>
      rw [hg] at hok e3 e4
      cases res with
      | error e => exact absurd hok (by simp)
      | ok l' =>
        refine ⟨by simp [runOp, hg], ?_⟩
        rw [show (runOp env st (Op.listInsights sid)).2 = st2 by simp [runOp, hg]]
        constructor
        · intro p hp
          rw [e3] at hp
          exact hs p hp
        · intro p hp
          rw [e4] at hp
          exact hi p hp
  | saveSession s =>
    obtain ⟨hok, hswf, hins⟩ := saveVideoSession_ok env s st hs
    cases hg : saveVideoSession env s st with
    | mk res st2 =>
      rw [hg] at hok hswf hins
      cases res with
      | error e => exact absurd hok (by simp)
      | ok u' =>
        refine ⟨by simp [runOp, hg], ?_⟩
        rw [show (runOp env st (Op.saveSession s)).2 = st2 by simp [runOp, hg]]
        refine ⟨hswf, ?_⟩
        intro p hp
        rw [show st2.localInsights = st.localInsights from hins] at hp
        exact hi p hp
  | saveInsight i =>
    obtain ⟨hok, hipa, hses⟩ := savePauseInsight_ok env i st hi
    cases hg : savePauseInsight env i st with
    | mk res st2 =>
      rw [hg] at hok hipa hses
      cases res with
      | error e => exact absurd hok (by simp)
      | ok u' =>
        refine ⟨by simp [runOp, hg], ?_⟩
        rw [show (runOp env st (Op.saveInsight i)).2 = st2 by simp [runOp, hg]]
        refine ⟨?_, hipa⟩
        intro p hp
        rw [show st2.localSessions = st.localSessions from hses] at hp
        exact hs p hp

theorem runOps_inv (env : Nat → Bool) (ops : List Op) :
    ∀ st : StorageState, Inv st →
      Inv (runOps env ops st).2 ∧ ∀ r ∈ (runOps env ops st).1, r ≠ OpResult.jsError := by
  induction ops with
  | nil =>
    intro st h
    exact ⟨h, by simp [runOps]⟩
  | cons op ops ih =>
    intro st h
    obtain ⟨hne, hinv⟩ := runOp_inv env st op h
    obtain ⟨hinv', hall⟩ := ih _ hinv
    refine ⟨by simpa [runOps] using hinv', ?_⟩
    intro r hr
    simp only [runOps, List.mem_cons] at hr
    rcases hr with h' | h'
    · rw [h']
      exact hne
    · exact hall r h'

theorem inv_initState : Inv initState := by
  constructor
  · intro p hp
    simp [initState] at hp
  · intro p hp
    simp [initState] at hp

theorem runOp_allFail_remote (st : StorageState) (op : Op) :
    ((runOp allFail st op).2).remoteSessions = st.remoteSessions ∧
      ((runOp allFail st op).2).remoteInsights = st.remoteInsights := by
  cases op with
  | listSessions u =>
    obtain ⟨e1, e2, _, _⟩ := getVideoSessions_stores allFail u st
    cases hg : getVideoSessions allFail u st with
    | mk res st2 =>
      rw [hg] at e1 e2
      cases res <;> simp [runOp, hg] <;> exact ⟨e1, e2⟩
  | listInsights sid =>
    obtain ⟨e1, e2, _, _⟩ := getPauseInsights_stores allFail sid st
    cases hg : getPauseInsights allFail sid st with
    | mk res st2 =>
      rw [hg] at e1 e2
      cases res <;> simp [runOp, hg] <;> exact ⟨e1, e2⟩
  | saveSession s =>
    have heq := saveVideoSession_allFail s st
    obtain ⟨e1, e2, _⟩ := localSaveSession_stores allFail s
      { st with dbAvailable := false, calls := st.calls + 1 }
    cases hg : localSaveSession allFail s
        { st with dbAvailable := false, calls := st.calls + 1 } with
    | mk res st2 =>
      rw [hg] at e1 e2
      cases res <;> simp [runOp, heq, hg] <;> exact ⟨e1, e2⟩
  | saveInsight i =>
    have heq := savePauseInsight_allFail i st
    obtain ⟨e1, e2, _⟩ := localSaveInsight_stores allFail i
      { st with dbAvailable := false, calls := st.calls + 1 }
    cases hg : localSaveInsight allFail i
        { st with dbAvailable := false, calls := st.calls + 1 } with
    | mk res st2 =>
      rw [hg] at e1 e2
      cases res <;> simp [runOp, heq, hg] <;> exact ⟨e1, e2⟩

theorem runOps_allFail_remote (ops : List Op) :
    ∀ st : StorageState,
      ((runOps allFail ops st).2).remoteSessions = st.remoteSessions ∧
        ((runOps allFail ops st).2).remoteInsights = st.remoteInsights := by
  induction ops with
  | nil =>
    intro st
    exact ⟨rfl, rfl⟩
  | cons op ops ih =>
    intro st
    obtain ⟨e1, e2⟩ := runOp_allFail_remote st op
    obtain ⟨f1, f2⟩ := ih (runOp allFail st op).2
    constructor
    · calc ((runOps allFail (op :: ops) st).2).remoteSessions
          = ((runOps allFail ops (runOp allFail st op).2).2).remoteSessions := rfl
        _ = ((runOp allFail st op).2).remoteSessions := f1
        _ = st.remoteSessions := e1
    · calc ((runOps allFail (op :: ops) st).2).remoteInsights
          = ((runOps allFail ops (runOp allFail st op).2).2).remoteInsights := rfl
        _ = ((runOp allFail st op).2).remoteInsights := f2
        _ = st.remoteInsights := e2

/-- C1 counterexample: the same call sequence (save an insight at timestamp
90, save one at 30, list the session's insights) produces observably different
results when every remote call fails than when the remote path serves it: the
remote path returns the insights sorted ascending by timestamp while the local
fallback returns them in save order. -/
theorem claimC1_counterexample :
    (runOps allOk [Op.saveInsight cexIns90, Op.saveInsight cexIns30,
        Op.listInsights "sess1"] initState).1 ≠
      (runOps allFail [Op.saveInsight cexIns90, Op.saveInsight cexIns30,
        Op.listInsights "sess1"] initState).1 := by
  decide

/-- C2 counterexample: after two remote-path saves of the same (user, video)
pair whose second call carries a different record id and thumbnail, the stored
collection holds exactly one record for the pair, but its id and thumbnail are
the first save's values, not the last-written ones. -/
theorem claimC2_counterexample :
    ((runOps allOk [Op.saveSession cexSessA, Op.saveSession cexSessA2]
        initState).2.remoteSessions.map (fun r => (r.id, r.thumbnail)) = [("a", "th")]) ∧
      cexSessA2.id = "b" ∧ cexSessA2.thumbnail = "th2" := by
  decide

/-- C3 counterexample: with the remote backend failing on every call, saving a
session with last-watched 2 and then one with last-watched 1 makes
listSessions return the two records in save order [1, 2] by last-watched, not
in descending last-watched order. -/
theorem claimC3_counterexample :
    ((runOps allFail [Op.saveSession cexSessA, Op.saveSession cexSessB,
        Op.listSessions "u1"] initState).1 =
      [OpResult.unit, OpResult.unit, OpResult.sessions [cexSessB, cexSessA]]) ∧
      ¬ ([cexSessB, cexSessA].Sorted (fun a b => b.last_watched ≤ a.last_watched)) := by
  constructor
  · decide
  · decide

/-- C4 counterexample: with a malformed (non-JSON-decodable) value stored in
the local cell, both list operations raise the JSON.parse exception to the
caller instead of returning the empty list. -/
theorem claimC4_counterexample :
    (getVideoSessions allFail "u1" malformedState).1 = Except.error () ∧
      (getPauseInsights allFail "sess1" malformedState).1 = Except.error () := by
  exact ⟨rfl, rfl⟩

/-- C5 counterexample: with the remote backend failing on every call, saving
insights for sess1 at timestamps 90 then 30 makes listInsights return them in
call order [90, 30], not ascending by pause timestamp. -/
theorem claimC5_counterexample :
    ((runOps allFail [Op.saveInsight cexIns90, Op.saveInsight cexIns30,
        Op.listInsights "sess1"] initState).1 =
      [OpResult.unit, OpResult.unit, OpResult.insights [cexIns90, cexIns30]]) ∧
      ¬ ([cexIns90, cexIns30].Sorted (fun a b => a.timestamp ≤ b.timestamp)) := by
  constructor
  · decide
  · decide

/-- C6 counterexample: on the local fallback path, re-saving the (u1, v1)
pair with a different record id and thumbnail replaces the stored record
wholesale - afterwards its id is "b" and its thumbnail "th2", though the
existing record had id "a" and thumbnail "th". -/
theorem claimC6_counterexample :
    lookupKey ((runOps allFail [Op.saveSession cexSessA, Op.saveSession cexSessA2]
        initState).2).localSessions "u1" = some (LocalCell.parsed [cexSessA2]) ∧
      cexSessA.id = "a" ∧ cexSessA.thumbnail = "th" ∧
      cexSessA2.id = "b" ∧ cexSessA2.thumbnail = "th2" := by
  decide

/-- C7 counterexample: from a state whose local store holds the insight i30
for sess1 and whose remote store is empty, one savePauseInsight call under a
backend that fails exactly on the remote write (probe succeeds, write fails,
the fallback's re-probe and re-read succeed) overwrites the local collection
with the remote-derived list: afterwards local storage holds only the new
insight and the remote store is still empty, so the previously stored i30 has
been removed. -/
theorem claimC7_counterexample :
    (savePauseInsight failSecondCall cexIns90 flapInsightState).2.remoteInsights = [] ∧
      lookupKey (savePauseInsight failSecondCall cexIns90 flapInsightState).2.localInsights
        "sess1" = some (LocalCell.parsed [cexIns90]) := by
  decide

/-- C10: the local fallback of saveSession and saveInsight re-reads the
existing collection through the corresponding list operation, which starts
with a fresh availability probe.  Under a backend failing exactly on the
save's remote write, the fallback therefore reads the existing collection
from the remote store, leaves the reachability flag true at the end of the
call, and writes the merged collection only to local storage (the remote
store is unchanged). -/
theorem claimC10 :
    ((saveVideoSession failSecondCall c10SessNew c10State).1 = Except.ok () ∧
      (saveVideoSession failSecondCall c10SessNew c10State).2.dbAvailable = true ∧
      (saveVideoSession failSecondCall c10SessNew c10State).2.remoteSessions =
        c10State.remoteSessions ∧
      lookupKey (saveVideoSession failSecondCall c10SessNew c10State).2.localSessions
        "u1" = some (LocalCell.parsed [c10SessNew, c10SessOld])) ∧
    ((savePauseInsight failSecondCall cexIns90 c10StateIns).1 = Except.ok () ∧
      (savePauseInsight failSecondCall cexIns90 c10StateIns).2.dbAvailable = true ∧
      (savePauseInsight failSecondCall cexIns90 c10StateIns).2.remoteInsights =
        c10StateIns.remoteInsights ∧
      lookupKey (savePauseInsight failSecondCall cexIns90 c10StateIns).2.localInsights
        "sess1" = some (LocalCell.parsed [c10InsOld, cexIns90])) := by
  exact ⟨⟨rfl, rfl, rfl, rfl⟩, rfl, rfl, rfl, rfl⟩


/-- C9: the pause handler of the video player ignores every pause whose
playback timestamp is strictly below 30 seconds, and attempts insight
generation for every pause at 30 seconds or later. -/
theorem claimC9 :
    ∀ t : ℚ,
      (t < 30 → handlePause t = PauseAction.noInsight) ∧
        (30 ≤ t → handlePause t = PauseAction.generateInsight t) := by
  intro t
  constructor
  · intro h
    simp [handlePause, h]
  · intro h
    simp [handlePause, not_lt.mpr h]

/-- Witness for C9 at the concrete pause times 10 and 45. -/
theorem claimC9_witness :
    handlePause 10 = PauseAction.noInsight ∧
      handlePause 45 = PauseAction.generateInsight 45 :=
  ⟨(claimC9 10).1 (by decide), (claimC9 45).2 (by decide)⟩

/-- C4 amended: when the availability probe fails, the list operations read
local storage; an absent stored value yields the empty list, but a malformed
(non-JSON-decodable) stored value makes JSON.parse throw, so the operation
raises to the caller instead of returning the empty list. -/
theorem claimC4_amended :
    ∀ (env : Nat → Bool) (u sid : String) (st : StorageState),
      env st.calls = false →
      (lookupKey st.localSessions u = none →
        (getVideoSessions env u st).1 = Except.ok []) ∧
      (lookupKey st.localSessions u = some LocalCell.malformed →
        (getVideoSessions env u st).1 = Except.error ()) ∧
      (lookupKey st.localInsights sid = none →
        (getPauseInsights env sid st).1 = Except.ok []) ∧
      (lookupKey st.localInsights sid = some LocalCell.malformed →
        (getPauseInsights env sid st).1 = Except.error ()) := by
  intro env u sid st h
  refine ⟨?_, ?_, ?_, ?_⟩ <;> intro hl
  · rw [getVideoSessions_probeFail env u st h]
    simp [localGetSessions, hl]
  · rw [getVideoSessions_probeFail env u st h]
    simp [localGetSessions, hl]
  · rw [getPauseInsights_probeFail env sid st h]
    simp [localGetInsights, hl]
  · rw [getPauseInsights_probeFail env sid st h]
    simp [localGetInsights, hl]

/-- Witness for C4 amended: with the probe failing and nothing stored, both
list operations return the empty list. -/
theorem claimC4_witness :
    (getVideoSessions allFail "u0" initState).1 = Except.ok [] ∧
      (getPauseInsights allFail "sid0" initState).1 = Except.ok [] :=
  ⟨(claimC4_amended allFail "u0" "sid0" initState rfl).1 rfl,
    (claimC4_amended allFail "u0" "sid0" initState rfl).2.2.1 rfl⟩

/-- C1 amended: with the remote backend failing on every call, every
operation of any call sequence from a fresh state still succeeds (no
exception reaches the caller) and the remote store is never written, so all
service is from local storage; the returned records have the same shape and
field values as on the remote path, but the sequences returned by the list
operations may be ordered differently (see the counterexample), and for the
specification's concrete scenario (two saves of one (user, video) pair with
unchanged id and thumbnail and increasing last-watched, then a list) the
observable results of the two paths are identical. -/
theorem claimC1_amended :
    (∀ ops : List Op, ∀ r ∈ (runOps allFail ops initState).1, r ≠ OpResult.jsError) ∧
      (∀ ops : List Op,
        ((runOps allFail ops initState).2).remoteSessions = [] ∧
          ((runOps allFail ops initState).2).remoteInsights = []) ∧
      (runOps allOk specScenario6 initState).1 = (runOps allFail specScenario6 initState).1 := by
  refine ⟨?_, ?_, ?_⟩
  · intro ops
    exact (runOps_inv allFail ops initState inv_initState).2
  · intro ops
    exact runOps_allFail_remote ops initState
  · decide

/-- Witness for C1 amended: a concrete all-fail run returns a non-error
result. -/
theorem claimC1_witness :
    OpResult.sessions ([] : List VideoSession) ≠ OpResult.jsError :=
  claimC1_amended.1 [Op.listSessions "u0"] (OpResult.sessions []) (by decide)

/-- C6 amended: on the remote path, updating an existing record for the
(user, video) pair rewrites only title, progress, duration and last-watched,
keeping id, video id, thumbnail and user id; on the local fallback path the
matching stored record is replaced wholesale by the incoming session, so its
id and thumbnail take the new call's values (video id and user id coincide by
the match). -/
theorem claimC6_amended :
    (∀ (env : Nat → Bool) (s : VideoSession) (st : StorageState) (r : RemoteSession)
        (rs : List RemoteSession),
        env st.calls = true → env (st.calls + 1) = true → env (st.calls + 1 + 1) = true →
        (st.remoteSessions.filter
            (fun x => x.videoId == s.video_id && x.userId == s.user_id)).take 1 = r :: rs →
        ((saveVideoSession env s st).2).remoteSessions =
            st.remoteSessions.map
              (fun x => if x.id == r.id then updateRemoteSession x s else x) ∧
          ∀ x : RemoteSession,
            (updateRemoteSession x s).id = x.id ∧
              (updateRemoteSession x s).videoId = x.videoId ∧
              (updateRemoteSession x s).thumbnail = x.thumbnail ∧
              (updateRemoteSession x s).userId = x.userId ∧
              (updateRemoteSession x s).title = s.title ∧
              (updateRemoteSession x s).progress = s.progress ∧
              (updateRemoteSession x s).duration = s.duration ∧
              (updateRemoteSession x s).lastWatched = s.last_watched) ∧
      (∀ (env : Nat → Bool) (s : VideoSession) (st : StorageState) (l : List VideoSession)
        (j : Nat),
        env st.calls = false → env (st.calls + 1) = false →
        lookupKey st.localSessions s.user_id = some (LocalCell.parsed l) →
        l.findIdx? (fun x : VideoSession => x.video_id == s.video_id) = some j →
        lookupKey ((saveVideoSession env s st).2).localSessions s.user_id =
          some (LocalCell.parsed ((l.set j s).take 20))) := by
  constructor
  · intro env s st r rs h1 h2 h3 hf
    rw [saveVideoSession_existing env s st r rs h1 h2 h3 hf]
    exact ⟨rfl, fun x => ⟨rfl, rfl, rfl, rfl, rfl, rfl, rfl, rfl⟩⟩
  · intro env s st l j h1 h2 hl hidx
    rw [saveVideoSession_probeFail env s st h1]
    have hg : getVideoSessions env s.user_id
        { st with dbAvailable := false, calls := st.calls + 1 } =
        (Except.ok l, { st with dbAvailable := false, calls := st.calls + 1 + 1 }) := by
      rw [getVideoSessions_probeFail env s.user_id _ h2]
      simp [localGetSessions, hl]
    simp only [localSaveSession, hg, hidx]
    exact lookupKey_setKey_self _ _ _

/-- Witness for C6 amended at concrete inputs on both paths. -/
theorem claimC6_witness :
    (((saveVideoSession allOk cexSessA2
          { initState with remoteSessions := [toWireSession cexSessA] }).2).remoteSessions =
        [toWireSession cexSessA].map
          (fun x => if x.id == (toWireSession cexSessA).id
            then updateRemoteSession x cexSessA2 else x) ∧
      (updateRemoteSession (toWireSession cexSessA) cexSessA2).id =
          (toWireSession cexSessA).id ∧
      (updateRemoteSession (toWireSession cexSessA) cexSessA2).thumbnail =
          (toWireSession cexSessA).thumbnail ∧
      (updateRemoteSession (toWireSession cexSessA) cexSessA2).title = cexSessA2.title) ∧
      lookupKey ((saveVideoSession allFail cexSessA2
          { initState with
            localSessions := [("u1", LocalCell.parsed [cexSessA])] }).2).localSessions
          "u1" =
        some (LocalCell.parsed (([cexSessA].set 0 cexSessA2).take 20)) := by
  obtain ⟨hmap, hfields⟩ := claimC6_amended.1 allOk cexSessA2
    { initState with remoteSessions := [toWireSession cexSessA] }
    (toWireSession cexSessA) [] rfl rfl rfl (by decide)
  obtain ⟨f1, f2, f3, f4, f5, f6, f7, f8⟩ := hfields (toWireSession cexSessA)
  refine ⟨⟨hmap, f1, f3, f5⟩, ?_⟩
  exact claimC6_amended.2 allFail cexSessA2
    { initState with localSessions := [("u1", LocalCell.parsed [cexSessA])] }
    [cexSessA] 0 rfl rfl (by decide) (by decide)

/-- C7 amended: on the remote path each saveInsight appends exactly one
wire-format record to the remote collection, and on the pure local path each
saveInsight appends the insight to the stored collection for its session,
leaving other sessions' cells unchanged; append-only can fail only when a
save falls back mid-call and rereads through the remote store (see the
counterexample). -/
theorem claimC7_amended :
    (∀ (i : PauseInsight) (st : StorageState),
        (savePauseInsight allOk i st).1 = Except.ok () ∧
          ((savePauseInsight allOk i st).2).remoteInsights =
            st.remoteInsights ++ [toWireInsight i]) ∧
      (∀ (i : PauseInsight) (st : StorageState) (l : List PauseInsight),
        lookupKey st.localInsights i.session_id = some (LocalCell.parsed l) →
        (savePauseInsight allFail i st).1 = Except.ok () ∧
          lookupKey ((savePauseInsight allFail i st).2).localInsights i.session_id =
            some (LocalCell.parsed (l ++ [i])) ∧
          ∀ sid' : String, sid' ≠ i.session_id →
            lookupKey ((savePauseInsight allFail i st).2).localInsights sid' =
              lookupKey st.localInsights sid') ∧
      (∀ (i : PauseInsight) (st : StorageState),
        lookupKey st.localInsights i.session_id = none →
        (savePauseInsight allFail i st).1 = Except.ok () ∧
          lookupKey ((savePauseInsight allFail i st).2).localInsights i.session_id =
            some (LocalCell.parsed [i])) := by
  refine ⟨?_, ?_, ?_⟩
  · intro i st
    rw [savePauseInsight_allOk]
    exact ⟨rfl, rfl⟩
  · intro i st l hl
    rw [savePauseInsight_allFail_parsed i st l hl]
    exact ⟨rfl, lookupKey_setKey_self _ _ _,
      fun sid' hne => lookupKey_setKey_ne _ _ _ _ hne⟩
  · intro i st hl
    rw [savePauseInsight_allFail_none i st hl]
    exact ⟨rfl, lookupKey_setKey_self _ _ _⟩

/-- Witness for C7 amended at concrete inputs on both paths. -/
theorem claimC7_witness :
    ((savePauseInsight allOk cexIns90 initState).1 = Except.ok () ∧
        ((savePauseInsight allOk cexIns90 initState).2).remoteInsights =
          initState.remoteInsights ++ [toWireInsight cexIns90]) ∧
      ((savePauseInsight allFail cexIns90 flapInsightState).1 = Except.ok () ∧
        lookupKey ((savePauseInsight allFail cexIns90 flapInsightState).2).localInsights
            cexIns90.session_id =
          some (LocalCell.parsed ([cexIns30] ++ [cexIns90])) ∧
        lookupKey ((savePauseInsight allFail cexIns90 flapInsightState).2).localInsights
            "other" =
          lookupKey flapInsightState.localInsights "other") := by
  obtain ⟨h1, h2, h3⟩ := claimC7_amended.2.1 cexIns90 flapInsightState [cexIns30] (by decide)
  exact ⟨claimC7_amended.1 cexIns90 initState, h1, h2, h3 "other" (by decide)⟩

/-- C3 amended: after any prior call sequence from a fresh state, a
listSessions call that returns normally yields at most 20 records; the
descending last-watched order is guaranteed on the remote path (probe and
query both succeed), while the local fallback returns the stored list, which
is in most-recently-saved-first order and need not be sorted (see the
counterexample). -/
theorem claimC3_amended :
    ∀ (env : Nat → Bool) (ops : List Op) (u : String) (l : List VideoSession)
      (st' : StorageState),
      getVideoSessions env u (runOps env ops initState).2 = (Except.ok l, st') →
      l.length ≤ 20 ∧
        (env ((runOps env ops initState).2).calls = true →
          env (((runOps env ops initState).2).calls + 1) = true →
          l.Sorted (fun a b : VideoSession => b.last_watched ≤ a.last_watched)) := by
  intro env ops u l st' hg
  obtain ⟨⟨hswf, _⟩, _⟩ := runOps_inv env ops initState inv_initState
  constructor
  · obtain ⟨l0, hok, hlen⟩ := getVideoSessions_ok env u _ hswf
    rw [hg] at hok
    have : l = l0 := by simpa using hok
    rw [this]
    exact hlen
  · intro h1 h2
    have hr := getVideoSessions_remote env u (runOps env ops initState).2 h1 h2
    rw [hg] at hr
    have hl : l = remoteListSessions ((runOps env ops initState).2).remoteSessions u := by
      have := congrArg Prod.fst hr
      simpa using this
    rw [hl]
    exact remoteListSessions_sorted _ _

/-- Witness for C3 amended on a fresh state under the all-success oracle. -/
theorem claimC3_witness :
    ([] : List VideoSession).length ≤ 20 ∧
      ([] : List VideoSession).Sorted
        (fun a b : VideoSession => b.last_watched ≤ a.last_watched) := by
  obtain ⟨h1, h2⟩ := claimC3_amended allOk [] "u0" []
    { initState with dbAvailable := true, calls := 2 } rfl
  exact ⟨h1, h2 rfl rfl⟩

/-- Induction helper: under the all-fail oracle, a sequence of saveInsight
calls for one session appends the insights in call order to the session's
local cell. -/
theorem runSaveInsights_allFail (is : List PauseInsight) :
    ∀ (sid : String) (st : StorageState) (acc : List PauseInsight),
      (∀ i ∈ is, i.session_id = sid) →
      lookupKey st.localInsights sid = some (LocalCell.parsed acc) →
      lookupKey ((runOps allFail (is.map Op.saveInsight) st).2).localInsights sid =
        some (LocalCell.parsed (acc ++ is)) := by
  induction is with
  | nil =>
    intro sid st acc _ h
    simpa using h
  | cons i is ih =>
    intro sid st acc hses h
    have hsid : i.session_id = sid := hses i (List.mem_cons_self i is)
    have h' : lookupKey st.localInsights i.session_id = some (LocalCell.parsed acc) := by
      rw [hsid]
      exact h
    have heq := savePauseInsight_allFail_parsed i st acc h'
    have h2 : lookupKey ((runOp allFail st (Op.saveInsight i)).2).localInsights sid =
        some (LocalCell.parsed (acc ++ [i])) := by
      simp only [runOp, heq]
      rw [← hsid]
      exact lookupKey_setKey_self _ _ _
    have hstep : (runOps allFail ((i :: is).map Op.saveInsight) st).2 =
        (runOps allFail (is.map Op.saveInsight) (runOp allFail st (Op.saveInsight i)).2).2 :=
      rfl
    rw [hstep]
    have := ih sid (runOp allFail st (Op.saveInsight i)).2 (acc ++ [i])
      (fun j hj => hses j (List.mem_cons_of_mem _ hj)) h2
    rw [this]
    simp

/-- C5 amended: a listInsights call served by the remote path returns the
session's insights sorted ascending by pause timestamp; the local fallback
path returns them exactly in save (call) order, which is ascending only when
the saves occurred in ascending timestamp order (see the counterexample). -/
theorem claimC5_amended :
    (∀ (env : Nat → Bool) (sid : String) (st : StorageState) (l : List PauseInsight)
        (st' : StorageState),
        getPauseInsights env sid st = (Except.ok l, st') →
        env st.calls = true → env (st.calls + 1) = true →
        l.Sorted (fun a b : PauseInsight => a.timestamp ≤ b.timestamp)) ∧
      (∀ (is : List PauseInsight) (sid : String),
        (∀ i ∈ is, i.session_id = sid) →
        (getPauseInsights allFail sid
            ((runOps allFail (is.map Op.saveInsight) initState).2)).1 = Except.ok is) := by
  constructor
  · intro env sid st l st' hg h1 h2
    have hr := getPauseInsights_remote env sid st h1 h2
    rw [hg] at hr
    have hl : l = remoteListInsights st.remoteInsights sid := by
      have := congrArg Prod.fst hr
      simpa using this
    rw [hl]
    exact remoteListInsights_sorted _ _
  · intro is sid hses
    cases is with
    | nil =>
      rw [getPauseInsights_allFail]
      simp [localGetInsights, lookupKey, initState, runOps]
    | cons i0 rest =>
      have hsid : i0.session_id = sid := hses i0 (List.mem_cons_self i0 rest)
      have heq := savePauseInsight_allFail_none i0 initState rfl
      have h2 : lookupKey ((runOp allFail initState (Op.saveInsight i0)).2).localInsights
          sid = some (LocalCell.parsed [i0]) := by
        simp only [runOp, heq]
        rw [← hsid]
        exact lookupKey_setKey_self _ _ _
      have hstep : (runOps allFail ((i0 :: rest).map Op.saveInsight) initState).2 =
          (runOps allFail (rest.map Op.saveInsight)
            (runOp allFail initState (Op.saveInsight i0)).2).2 := rfl
      rw [hstep]
      have hfin := runSaveInsights_allFail rest sid
        (runOp allFail initState (Op.saveInsight i0)).2 [i0]
        (fun j hj => hses j (List.mem_cons_of_mem _ hj)) h2
      rw [getPauseInsights_allFail]
      simp [localGetInsights, hfin]

/-- Witness for C5 amended: remote path sortedness at a concrete state, and
local call-order at a concrete save sequence. -/
theorem claimC5_witness :
    ([cexIns30, cexIns90].Sorted (fun a b : PauseInsight => a.timestamp ≤ b.timestamp)) ∧
      (getPauseInsights allFail "sess1"
          ((runOps allFail ([cexIns30, cexIns90].map Op.saveInsight) initState).2)).1 =
        Except.ok [cexIns30, cexIns90] :=
  ⟨claimC5_amended.1 allOk "sess1"
      { initState with remoteInsights := [toWireInsight cexIns30, toWireInsight cexIns90] }
      [cexIns30, cexIns90]
      { initState with
        dbAvailable := true
        calls := 2
        remoteInsights := [toWireInsight cexIns30, toWireInsight cexIns90] }
      (by rw [getPauseInsights_remote allOk "sess1" _ rfl rfl]; rfl) rfl rfl,
    claimC5_amended.2 [cexIns30, cexIns90] "sess1" (by decide)⟩

/-- getLast? of a cons in terms of getLastD. -/
theorem getLast?_cons_eq_getLastD {α : Type} (a : α) (l : List α) :
    (a :: l).getLast? = some (l.getLastD a) := by
  induction l generalizing a with
  | nil => rfl
  | cons b l ih => rw [List.getLast?_cons_cons, ih b, List.getLastD_cons]

/-- Folding remote updates never changes id, video id, thumbnail or user
id. -/
theorem foldl_upd_immutable (ss : List VideoSession) :
    ∀ r : RemoteSession,
      (ss.foldl updateRemoteSession r).id = r.id ∧
        (ss.foldl updateRemoteSession r).videoId = r.videoId ∧
        (ss.foldl updateRemoteSession r).thumbnail = r.thumbnail ∧
        (ss.foldl updateRemoteSession r).userId = r.userId := by
  induction ss with
  | nil => intro r; exact ⟨rfl, rfl, rfl, rfl⟩
  | cons s ss ih =>
    intro r
    exact ih (updateRemoteSession r s)

/-- Folding remote updates leaves the mutable fields at the last session's
values. -/
theorem foldl_upd_last (ss : List VideoSession) :
    ∀ (r : RemoteSession) (lst : VideoSession), ss.getLast? = some lst →
      (ss.foldl updateRemoteSession r).title = lst.title ∧
        (ss.foldl updateRemoteSession r).progress = lst.progress ∧
        (ss.foldl updateRemoteSession r).duration = lst.duration ∧
        (ss.foldl updateRemoteSession r).lastWatched = lst.last_watched := by
  induction ss with
  | nil =>
    intro r lst h
    simp at h
  | cons s ss ih =>
    intro r lst h
    cases ss with
    | nil =>
      have hs : s = lst := by simpa using h
      rw [← hs]
      exact ⟨rfl, rfl, rfl, rfl⟩
    | cons s2 ss2 =>
      rw [List.getLast?_cons_cons] at h
      exact ih (updateRemoteSession r s) lst h

/-- Induction helper: under the all-success oracle, repeatedly saving
sessions of one (user, video) pair against a remote store holding exactly one
record for that pair folds the update payloads into that record. -/
theorem runSaves_allOk_single (ss : List VideoSession) :
    ∀ (r : RemoteSession) (st : StorageState),
      st.remoteSessions = [r] →
      (∀ s ∈ ss, s.video_id = r.videoId ∧ s.user_id = r.userId) →
      ((runOps allOk (ss.map Op.saveSession) st).2).remoteSessions =
        [ss.foldl updateRemoteSession r] := by
  induction ss with
  | nil =>
    intro r st hr _
    simpa using hr
  | cons s ss ih =>
    intro r st hr hp
    obtain ⟨hv, hu⟩ := hp s (List.mem_cons_self s ss)
    have hf : (st.remoteSessions.filter
        (fun x => x.videoId == s.video_id && x.userId == s.user_id)).take 1 = [r] := by
      rw [hr, hv, hu]
      simp [List.filter]
    have heq := saveVideoSession_allOk_existing s st r [] hf
    have h2 : ((runOp allOk st (Op.saveSession s)).2).remoteSessions =
        [updateRemoteSession r s] := by
      simp [runOp, heq, hr]
    have hstep : (runOps allOk ((s :: ss).map Op.saveSession) st).2 =
        (runOps allOk (ss.map Op.saveSession) (runOp allOk st (Op.saveSession s)).2).2 :=
      rfl
    rw [hstep]
    exact ih (updateRemoteSession r s) _ h2
      (fun s' hs' => hp s' (List.mem_cons_of_mem _ hs'))

/-- Induction helper: under the all-fail oracle, repeatedly saving sessions
of one (user, video) pair against a local cell holding exactly one record for
that pair leaves the cell holding exactly the last save. -/
theorem runSaves_allFail_single (ss : List VideoSession) :
    ∀ (cur : VideoSession) (u v : String) (st : StorageState),
      cur.video_id = v →
      lookupKey st.localSessions u = some (LocalCell.parsed [cur]) →
      (∀ s ∈ ss, s.video_id = v ∧ s.user_id = u) →
      lookupKey ((runOps allFail (ss.map Op.saveSession) st).2).localSessions u =
        some (LocalCell.parsed [ss.getLastD cur]) := by
  induction ss with
  | nil =>
    intro cur u v st _ h _
    simpa using h
  | cons s ss ih =>
    intro cur u v st hcv h hp
    obtain ⟨hv, hu⟩ := hp s (List.mem_cons_self s ss)
    have h' : lookupKey st.localSessions s.user_id = some (LocalCell.parsed [cur]) := by
      rw [hu]
      exact h
    have heq := saveVideoSession_allFail_parsed s st [cur] h'
    have hidx : [cur].findIdx? (fun x : VideoSession => x.video_id == s.video_id) =
        some 0 := by
      simp [List.findIdx?, hcv, hv]
    have h2 : lookupKey ((runOp allFail st (Op.saveSession s)).2).localSessions u =
        some (LocalCell.parsed [s]) := by
      simp only [runOp, heq, hidx]
      rw [← hu]
      exact lookupKey_setKey_self _ _ _
    have hstep : (runOps allFail ((s :: ss).map Op.saveSession) st).2 =
        (runOps allFail (ss.map Op.saveSession) (runOp allFail st (Op.saveSession s)).2).2 :=
      rfl
    rw [hstep, List.getLastD_cons]
    exact ih s u v _ hv h2 (fun s' hs' => hp s' (List.mem_cons_of_mem _ hs'))

/-- C2 amended: for every nonempty sequence of saveSession calls sharing one
(user, video) pair, starting from a fresh state, each storage path retains
exactly one record for the pair; on the local path all its fields equal the
last save's, while on the remote path its title, progress, duration and
last-watched equal the last save's but its id and thumbnail keep the first
save's values. -/
theorem claimC2_amended :
    ∀ (s0 : VideoSession) (rest : List VideoSession) (lst : VideoSession),
      (s0 :: rest).getLast? = some lst →
      (∀ s ∈ s0 :: rest, s.video_id = s0.video_id ∧ s.user_id = s0.user_id) →
      (∃ r : RemoteSession,
        ((runOps allOk ((s0 :: rest).map Op.saveSession) initState).2).remoteSessions =
            [r] ∧
          r.id = s0.id ∧ r.videoId = s0.video_id ∧ r.thumbnail = s0.thumbnail ∧
          r.userId = s0.user_id ∧ r.title = lst.title ∧ r.progress = lst.progress ∧
          r.duration = lst.duration ∧ r.lastWatched = lst.last_watched) ∧
      lookupKey ((runOps allFail ((s0 :: rest).map Op.saveSession) initState).2).localSessions
          s0.user_id = some (LocalCell.parsed [lst]) := by
  intro s0 rest lst hlast hp
  constructor
  · have heq := saveVideoSession_allOk_new s0 initState rfl
    have h1 : ((runOp allOk initState (Op.saveSession s0)).2).remoteSessions =
        [toWireSession s0] := by
      simp only [runOp, heq]
      simp [initState]
    have hstep : (runOps allOk ((s0 :: rest).map Op.saveSession) initState).2 =
        (runOps allOk (rest.map Op.saveSession)
          (runOp allOk initState (Op.saveSession s0)).2).2 := rfl
    have hrem := runSaves_allOk_single rest (toWireSession s0) _ h1
      (fun s' hs' => hp s' (List.mem_cons_of_mem _ hs'))
    refine ⟨rest.foldl updateRemoteSession (toWireSession s0), ?_, ?_⟩
    · rw [hstep]
      exact hrem
    · obtain ⟨e1, e2, e3, e4⟩ := foldl_upd_immutable rest (toWireSession s0)
      cases rest with
      | nil =>
        have hs : s0 = lst := by simpa using hlast
        rw [← hs]
        exact ⟨rfl, rfl, rfl, rfl, rfl, rfl, rfl, rfl⟩
      | cons s2 rest2 =>
        rw [List.getLast?_cons_cons] at hlast
        obtain ⟨f1, f2, f3, f4⟩ := foldl_upd_last (s2 :: rest2) (toWireSession s0) lst hlast
        exact ⟨e1, e2, e3, e4, f1, f2, f3, f4⟩
  · have heq := saveVideoSession_allFail_none s0 initState rfl
    have h2 : lookupKey ((runOp allFail initState (Op.saveSession s0)).2).localSessions
        s0.user_id = some (LocalCell.parsed [s0]) := by
      simp only [runOp, heq]
      exact lookupKey_setKey_self _ _ _
    have hstep : (runOps allFail ((s0 :: rest).map Op.saveSession) initState).2 =
        (runOps allFail (rest.map Op.saveSession)
          (runOp allFail initState (Op.saveSession s0)).2).2 := rfl
    rw [hstep]
    have hfin := runSaves_allFail_single rest s0 s0.user_id s0.video_id _ rfl h2
      (fun s' hs' => hp s' (List.mem_cons_of_mem _ hs'))
    rw [hfin]
    have : rest.getLastD s0 = lst := by
      rw [getLast?_cons_eq_getLastD] at hlast
      simpa using hlast
    rw [this]

/-- Witness for C2 amended at the specification's concrete two-save
scenario. -/
theorem claimC2_witness :
    (((runOps allOk ([specSess1, specSess2].map Op.saveSession) initState).2).remoteSessions.length =
        1) ∧
      lookupKey
          ((runOps allFail ([specSess1, specSess2].map Op.saveSession) initState).2).localSessions
          specSess1.user_id = some (LocalCell.parsed [specSess2]) := by
  obtain ⟨⟨r, hr, _⟩, hl⟩ :=
    claimC2_amended specSess1 [specSess2] specSess2 (by decide) (by decide)
  refine ⟨?_, hl⟩
  rw [hr]
  rfl

/-- C8: the facade's field-name translation at the remote-store boundary is
exact and bidirectional for every persisted field - the write-direction
payload and the read-direction delivery are mutually inverse for both record
kinds - and saving a fresh record through the remote path and then listing it
returns every field with its in-memory name and value unchanged. -/
theorem claimC8 :
    (∀ s : VideoSession, fromWireSession (toWireSession s) = s) ∧
      (∀ r : RemoteSession, toWireSession (fromWireSession r) = r) ∧
      (∀ i : PauseInsight, fromWireInsight (toWireInsight i) = i) ∧
      (∀ r : RemoteInsight, toWireInsight (fromWireInsight r) = r) ∧
      (∀ s : VideoSession,
        (runOps allOk [Op.saveSession s, Op.listSessions s.user_id] initState).1 =
          [OpResult.unit, OpResult.sessions [s]]) ∧
      (∀ i : PauseInsight,
        (runOps allOk [Op.saveInsight i, Op.listInsights i.session_id] initState).1 =
          [OpResult.unit, OpResult.insights [i]]) := by
  refine ⟨fun s => rfl, fun r => rfl, fun i => rfl, fun r => rfl, ?_, ?_⟩
  · intro s
    have heq := saveVideoSession_allOk_new s initState rfl
    have hget := getVideoSessions_remote allOk s.user_id
      (saveVideoSession allOk s initState).2 rfl rfl
    rw [heq] at hget
    simp only [runOps, runOp, heq, hget]
    simp [remoteListSessions, initState, toWireSession, fromWireSession, lwDesc]
  · intro i
    have heq := savePauseInsight_allOk i initState
    have hget := getPauseInsights_remote allOk i.session_id
      (savePauseInsight allOk i initState).2 rfl rfl
    rw [heq] at hget
    simp only [runOps, runOp, heq, hget]
    simp [remoteListInsights, initState, toWireInsight, fromWireInsight, tsAsc]
end PauseLearn
